import Mathlib

/-!
Verification of the CHIP-8 interpreter core (`chip8_core.cpp`, `chip8_core.h`,
`flag_manager.h`).

The guest-visible machine state is embedded shallowly: the byte arrays
(`RAM`, `V`, `STACK`, `DISPLAYBUFFER`, `dirty_flags`, `key_states`) become
total functions `Nat → Nat` holding byte/word values, machine-integer
arithmetic is `Nat` arithmetic with the wraparound of the C unsigned types
made explicit (`% 256` for `uint8_t`, `% 65536` for `uint16_t`), and the
bit operations (`&`, `|`, `^`, `<<`, `>>`) are `Nat.land`/`lor`/`xor`/
`shiftLeft`/`shiftRight`.  The host is an ESP32 (little-endian), so a
`memcpy` out of a `uint16_t` array writes each element low byte first;
this matters for `load_fontset`, whose source `FONTSET` array is declared
`uint16_t[80]`.
-/

namespace Chip8

/-- Flag positions, from the `#define` block of `chip8_core.cpp`. -/
def HARDWARE_TIMERS : Nat := 0

/-- Flag position: a ROM has been loaded. -/
def ROM_IS_LOADED : Nat := 1

/-- Flag position: the emulator is running. -/
def EMULATOR_STATE : Nat := 2

/-- Flag position: the emulator has been initialized. -/
def INITIALIZED : Nat := 3

/-- Flag position: the CPU cycle needs a draw update. -/
def CPU_CYCLE_DRAW_FLAG : Nat := 4

/-- Flag position: the GPU cycle needs a draw update. -/
def GPU_CYCLE_DRAW_FLAG : Nat := 5

/-- Flag position: sound should be played. -/
def SOUND : Nat := 6

/-- Flag position: the emulator is paused. -/
def PAUSE : Nat := 7

/-- The `flag_manager<uint16_t>::get` operation of `flag_manager.h`:
`(flags & (1 << position)) != 0`. -/
def flagGet (flags : Nat) (position : Nat) : Bool :=
  flags &&& ((1 <<< position) % 65536) != 0

/-- The `flag_manager<uint16_t>::set` operation of `flag_manager.h`:
`fetch_or` with the bitmask when setting, `fetch_and` with the 16-bit
complement of the bitmask when clearing. -/
def flagSet (flags : Nat) (position : Nat) (value : Bool) : Nat :=
  let bitmask := (1 <<< position) % 65536
  if value then flags ||| bitmask
  else flags &&& (65535 ^^^ bitmask)

/-- The `flag_manager::clear_all` operation: the flags word becomes 0. -/
def flagClearAll : Nat := 0

/-- The 80-entry `FONTSET` table of `chip8_core.cpp`.  In the source it is
declared `uint16_t FONTSET[80]` even though every entry is a byte value. -/
def FONTSET : List Nat :=
  [0xF0, 0x90, 0x90, 0x90, 0xF0,
   0x20, 0x60, 0x20, 0x20, 0x70,
   0xF0, 0x10, 0xF0, 0x80, 0xF0,
   0xF0, 0x10, 0xF0, 0x10, 0xF0,
   0x90, 0x90, 0xF0, 0x10, 0x10,
   0xF0, 0x80, 0xF0, 0x10, 0xF0,
   0xF0, 0x80, 0xF0, 0x90, 0xF0,
   0xF0, 0x10, 0x20, 0x40, 0x40,
   0xF0, 0x90, 0xF0, 0x90, 0xF0,
   0xF0, 0x90, 0xF0, 0x10, 0xF0,
   0xF0, 0x90, 0xF0, 0x90, 0x90,
   0xE0, 0x90, 0xE0, 0x90, 0xE0,
   0xF0, 0x80, 0x80, 0x80, 0xF0,
   0xE0, 0x90, 0x90, 0x90, 0xE0,
   0xF0, 0x80, 0xF0, 0x80, 0xF0,
   0xF0, 0x80, 0xF0, 0x80, 0x80]

/-- The machine state of `chip8_core`: `RAM`, the register file `reg`
(`PC`, `INDEX`, `STACK`, `SP`, `DELAYTIMER`, `SOUNDTIMER`, `V`), the
display buffer, the dirty map, the packed flags word of the
`flag_manager<uint16_t>` member, and the `key_states` array. -/
structure Chip8State where
  RAM : Nat → Nat
  V : Nat → Nat
  PC : Nat
  INDEX : Nat
  STACK : Nat → Nat
  SP : Nat
  DELAYTIMER : Nat
  SOUNDTIMER : Nat
  DISPLAYBUFFER : Nat → Nat
  dirty : Nat → Nat → Nat
  flags : Nat
  keys : Nat → Nat

/-- Byte `k` of the 160 bytes that `memcpy(RAM + 0x50, FONTSET,
sizeof(FONTSET))` writes: `sizeof(FONTSET)` is 160 because `FONTSET` is a
`uint16_t[80]`, and on the little-endian ESP32 each entry is written low
byte first. -/
def fontsetByteLE (k : Nat) : Nat :=
  if k % 2 = 0 then FONTSET.getD (k / 2) 0 % 256
  else FONTSET.getD (k / 2) 0 / 256 % 256

/-- The `chip8_core::load_fontset` operation: copies `sizeof(FONTSET)` =
160 bytes to `RAM + 0x50`. -/
def load_fontset (ram : Nat → Nat) : Nat → Nat :=
  fun i => if 0x50 ≤ i ∧ i < 0x50 + 160 then fontsetByteLE (i - 0x50) else ram i

/-- The `chip8_core::load_rom` operation: `memset(RAM, 0, 4096)`, then
`load_fontset()`, then `memcpy(RAM + 0x200, rom, rom_size)` (no size check
in the source), then `flag.set(ROM_IS_LOADED, true)`. -/
def load_rom (s : Chip8State) (rom : List Nat) : Chip8State :=
  let ram0 : Nat → Nat := fun _ => 0
  let ram1 := load_fontset ram0
  let ram2 : Nat → Nat := fun i =>
    if 0x200 ≤ i ∧ i < 0x200 + rom.length then rom.getD (i - 0x200) 0 else ram1 i
  { s with RAM := ram2, flags := flagSet s.flags ROM_IS_LOADED true }

/-- The RAM indices written by the `memcpy(RAM + 0x200, rom, rom_size)`
call inside `load_rom`, for a ROM of the given length. -/
def load_rom_copy_writes (romLength : Nat) : List Nat :=
  (List.range romLength).map (fun k => 0x200 + k)

/-- The `chip8_core::stop` operation restricted to guest-visible state:
if the `EMULATOR_STATE` flag is set, all flags are cleared (`clear_all`)
and the call reports success; otherwise nothing changes.  (`ht_stop` only
touches the hardware-timer globals, which are outside the guest state.) -/
def stop (s : Chip8State) : Chip8State :=
  if flagGet s.flags EMULATOR_STATE then { s with flags := flagClearAll } else s

/-- The body of the 60 Hz timer service inside `chip8_core::gpu_cycle`
(the code guarded by the tick condition): promote the CPU draw flag to
the GPU draw flag, decrement `DELAYTIMER` if positive, and if
`SOUNDTIMER` is positive set `SOUND`, decrement it, and clear `SOUND`
when it reaches zero. -/
def gpu_tick (s : Chip8State) : Chip8State :=
  let s1 :=
    if flagGet s.flags CPU_CYCLE_DRAW_FLAG then
      { s with flags := flagSet (flagSet s.flags CPU_CYCLE_DRAW_FLAG false)
                          GPU_CYCLE_DRAW_FLAG true }
    else s
  let s2 :=
    if s1.DELAYTIMER > 0 then { s1 with DELAYTIMER := s1.DELAYTIMER - 1 } else s1
  if s2.SOUNDTIMER > 0 then
    let f1 := flagSet s2.flags SOUND true
    let st := s2.SOUNDTIMER - 1
    if st = 0 then { s2 with flags := flagSet f1 SOUND false, SOUNDTIMER := st }
    else { s2 with flags := f1, SOUNDTIMER := st }
  else s2

/-- The `chip8_core::is_key_pressed` operation:
`key < 16 && key_states[key] == 1`. -/
def is_key_pressed (s : Chip8State) (key : Nat) : Bool :=
  key < 16 && s.keys key == 1

/-- The `chip8_core::get_pressed_key` operation: the first key index in
`0..15` whose state is 1, or none (the source returns `-1`). -/
def get_pressed_key (s : Chip8State) : Option Nat :=
  (List.range 16).find? (fun k => s.keys k == 1)

/-- The `uint8_t` subtraction `a - b` of the source (two's-complement
wraparound), for byte-valued operands. -/
def sub8 (a b : Nat) : Nat :=
  (a % 256 + 256 - b % 256) % 256

/-- Intermediate state of the DXYN sprite loop: the display buffer, the
dirty map, and the collision register `V[0xF]`. -/
structure DrawState where
  fb : Nat → Nat
  dirty : Nat → Nat → Nat
  vf : Nat

/-- One iteration of the inner (`xline`) loop of the DXYN case: if sprite
bit `0x80 >> xline` of the row byte is set, toggle the framebuffer pixel
at `((X + xline) & 63, y_coord)`, record a collision in `vf` if the pixel
was already lit, and mark the dirty cell.
In the source the locals are `x_coord = (X + xline) & 63`,
`bit_index = x_coord + y_coord * 64`, the byte index `bit_index >> 3` and
the bit position `7 - (bit_index & 0x07)`; they are written out in full
below. -/
def stepPx (X y_coord pixel : Nat) (t : DrawState) (xline : Nat) : DrawState :=
  if pixel &&& (0x80 >>> xline) != 0 then
    { fb := Function.update t.fb ((((X + xline) &&& 63) + y_coord * 64) >>> 3)
        (t.fb ((((X + xline) &&& 63) + y_coord * 64) >>> 3) ^^^
          (1 <<< (7 - ((((X + xline) &&& 63) + y_coord * 64) &&& 0x07))))
      dirty := fun y x =>
        if y = y_coord ∧ x = ((X + xline) &&& 63) / 8 then 1 else t.dirty y x
      vf := if t.fb ((((X + xline) &&& 63) + y_coord * 64) >>> 3) &&&
          (1 <<< (7 - ((((X + xline) &&& 63) + y_coord * 64) &&& 0x07))) != 0
        then 1 else t.vf }
  else t

/-- One iteration of the outer (`yline`) loop of the DXYN case: read the
sprite row byte `RAM[INDEX + yline]`, compute `y_coord = (Y + yline) & 31`,
and run the 8 inner iterations. -/
def stepRow (X Y INDEX : Nat) (ram : Nat → Nat) (t : DrawState) (yline : Nat) : DrawState :=
  (List.range 8).foldl (stepPx X ((Y + yline) &&& 31) (ram (INDEX + yline))) t

/-- The full DXYN sprite loop, starting with `V[0xF] = 0`. -/
def drawSprite (X Y height INDEX : Nat) (ram fb : Nat → Nat)
    (dirty : Nat → Nat → Nat) : DrawState :=
  (List.range height).foldl (stepRow X Y INDEX ram) ⟨fb, dirty, 0⟩

/-- The opcode fetch of `chip8_core::execute`:
`(RAM[PC] << 8) | RAM[PC + 1]`. -/
def fetch (s : Chip8State) : Nat :=
  (s.RAM s.PC) <<< 8 ||| s.RAM (s.PC + 1)

/-- The `chip8_core::execute` operation: fetch, decode and execute one
instruction.  `rand` stands for the value returned by `esp_random()` in
the CXNN case.  Each branch mirrors the corresponding `case` of the
source `switch`, including the write order of the register updates (the
source writes `V[0xF]` before `V[X]` in the 8XYN group) and the `uint8_t`
/ `uint16_t` wraparound of the C arithmetic. -/
def execute (s : Chip8State) (rand : Nat) : Chip8State :=
  let OPCODE := fetch s
  if OPCODE &&& 0xF000 = 0x0000 then
    if OPCODE &&& 0x00FF = 0xE0 then
      { s with DISPLAYBUFFER := fun _ => 0
               dirty := fun _ _ => 1
               flags := flagSet s.flags CPU_CYCLE_DRAW_FLAG true
               PC := (s.PC + 2) % 65536 }
    else if OPCODE &&& 0x00FF = 0xEE then
      let sp := (s.SP + 255) % 256
      { s with SP := sp, PC := s.STACK sp }
    else if OPCODE &&& 0x00FF = 0xFD then
      stop s
    else s
  else if OPCODE &&& 0xF000 = 0x1000 then
    { s with PC := OPCODE &&& 0x0FFF }
  else if OPCODE &&& 0xF000 = 0x2000 then
    if s.SP < 16 then
      { s with STACK := Function.update s.STACK s.SP ((s.PC + 2) % 65536)
               SP := s.SP + 1
               PC := OPCODE &&& 0x0FFF }
    else
      { s with PC := (s.PC + 2) % 65536 }
  else if OPCODE &&& 0xF000 = 0x3000 then
    if s.V ((OPCODE &&& 0x0F00) >>> 8) = OPCODE &&& 0x00FF then
      { s with PC := (s.PC + 4) % 65536 }
    else
      { s with PC := (s.PC + 2) % 65536 }
  else if OPCODE &&& 0xF000 = 0x4000 then
    if s.V ((OPCODE &&& 0x0F00) >>> 8) ≠ OPCODE &&& 0x00FF then
      { s with PC := (s.PC + 4) % 65536 }
    else
      { s with PC := (s.PC + 2) % 65536 }
  else if OPCODE &&& 0xF000 = 0x5000 then
    if s.V ((OPCODE &&& 0x0F00) >>> 8) = s.V ((OPCODE &&& 0x00F0) >>> 4) then
      { s with PC := (s.PC + 4) % 65536 }
    else
      { s with PC := (s.PC + 2) % 65536 }
  else if OPCODE &&& 0xF000 = 0x6000 then
    { s with V := Function.update s.V ((OPCODE &&& 0x0F00) >>> 8) (OPCODE &&& 0x00FF)
             PC := (s.PC + 2) % 65536 }
  else if OPCODE &&& 0xF000 = 0x7000 then
    let X := (OPCODE &&& 0x0F00) >>> 8
    { s with V := Function.update s.V X ((s.V X + (OPCODE &&& 0x00FF)) % 256)
             PC := (s.PC + 2) % 65536 }
  else if OPCODE &&& 0xF000 = 0x8000 then
    let X := (OPCODE &&& 0x0F00) >>> 8
    let Y := (OPCODE &&& 0x00F0) >>> 4
    if OPCODE &&& 0x000F = 0x0 then
      { s with V := Function.update s.V X (s.V Y), PC := (s.PC + 2) % 65536 }
    else if OPCODE &&& 0x000F = 0x1 then
      { s with V := Function.update s.V X (s.V X ||| s.V Y), PC := (s.PC + 2) % 65536 }
    else if OPCODE &&& 0x000F = 0x2 then
      { s with V := Function.update s.V X (s.V X &&& s.V Y), PC := (s.PC + 2) % 65536 }
    else if OPCODE &&& 0x000F = 0x3 then
      { s with V := Function.update s.V X (s.V X ^^^ s.V Y), PC := (s.PC + 2) % 65536 }
    else if OPCODE &&& 0x000F = 0x4 then
      let sum := s.V X + s.V Y
      let v1 := Function.update s.V 0xF (if sum > 0xFF then 1 else 0)
      { s with V := Function.update v1 X (sum &&& 0xFF), PC := (s.PC + 2) % 65536 }
    else if OPCODE &&& 0x000F = 0x5 then
      let v1 := Function.update s.V 0xF (if s.V X > s.V Y then 1 else 0)
      { s with V := Function.update v1 X (sub8 (v1 X) (v1 Y)), PC := (s.PC + 2) % 65536 }
    else if OPCODE &&& 0x000F = 0x6 then
      let v1 := Function.update s.V 0xF (s.V X &&& 0x1)
      { s with V := Function.update v1 X (v1 X >>> 1), PC := (s.PC + 2) % 65536 }
    else if OPCODE &&& 0x000F = 0x7 then
      let v1 := Function.update s.V 0xF (if s.V Y > s.V X then 1 else 0)
      { s with V := Function.update v1 X (sub8 (v1 Y) (v1 X)), PC := (s.PC + 2) % 65536 }
    else if OPCODE &&& 0x000F = 0xE then
      let v1 := Function.update s.V 0xF (if s.V X &&& 0x80 ≠ 0 then 1 else 0)
      { s with V := Function.update v1 X ((v1 X <<< 1) % 256), PC := (s.PC + 2) % 65536 }
    else
      { s with PC := (s.PC + 2) % 65536 }
  else if OPCODE &&& 0xF000 = 0x9000 then
    if s.V ((OPCODE &&& 0x0F00) >>> 8) ≠ s.V ((OPCODE &&& 0x00F0) >>> 4) then
      { s with PC := (s.PC + 4) % 65536 }
    else
      { s with PC := (s.PC + 2) % 65536 }
  else if OPCODE &&& 0xF000 = 0xA000 then
    { s with INDEX := OPCODE &&& 0x0FFF, PC := (s.PC + 2) % 65536 }
  else if OPCODE &&& 0xF000 = 0xB000 then
    { s with PC := ((OPCODE &&& 0x0FFF) + s.V 0) % 65536 }
  else if OPCODE &&& 0xF000 = 0xC000 then
    { s with V := Function.update s.V ((OPCODE &&& 0x0F00) >>> 8)
                    ((rand &&& 0xFF) &&& (OPCODE &&& 0x00FF))
             PC := (s.PC + 2) % 65536 }
  else if OPCODE &&& 0xF000 = 0xD000 then
    let X := s.V ((OPCODE >>> 8) &&& 0x0F)
    let Y := s.V ((OPCODE >>> 4) &&& 0x0F)
    let height := OPCODE &&& 0x000F
    let d := drawSprite X Y height s.INDEX s.RAM s.DISPLAYBUFFER s.dirty
    { s with DISPLAYBUFFER := d.fb
             dirty := d.dirty
             V := Function.update s.V 0xF d.vf
             PC := (s.PC + 2) % 65536
             flags := flagSet s.flags CPU_CYCLE_DRAW_FLAG true }
  else if OPCODE &&& 0xF000 = 0xE000 then
    let key := s.V ((OPCODE &&& 0x0F00) >>> 8)
    if OPCODE &&& 0x00FF = 0x9E then
      if is_key_pressed s key then { s with PC := (s.PC + 4) % 65536 }
      else { s with PC := (s.PC + 2) % 65536 }
    else if OPCODE &&& 0x00FF = 0xA1 then
      if ¬ is_key_pressed s key then { s with PC := (s.PC + 4) % 65536 }
      else { s with PC := (s.PC + 2) % 65536 }
    else
      { s with PC := (s.PC + 2) % 65536 }
  else if OPCODE &&& 0xF000 = 0xF000 then
    let X := (OPCODE &&& 0x0F00) >>> 8
    if OPCODE &&& 0x00FF = 0x07 then
      { s with V := Function.update s.V X s.DELAYTIMER, PC := (s.PC + 2) % 65536 }
    else if OPCODE &&& 0x00FF = 0x15 then
      { s with DELAYTIMER := s.V X, PC := (s.PC + 2) % 65536 }
    else if OPCODE &&& 0x00FF = 0x18 then
      { s with SOUNDTIMER := s.V X, PC := (s.PC + 2) % 65536 }
    else if OPCODE &&& 0x00FF = 0x0A then
      match get_pressed_key s with
      | some k => { s with V := Function.update s.V X k, PC := (s.PC + 2) % 65536 }
      | none => s
    else if OPCODE &&& 0x00FF = 0x1E then
      let idx := (s.INDEX + s.V X) % 65536
      { s with INDEX := idx &&& 0xFFF
               V := Function.update s.V 0xF (if idx > 0xFFF then 1 else 0)
               PC := (s.PC + 2) % 65536 }
    else if OPCODE &&& 0x00FF = 0x29 then
      { s with INDEX := (0x50 + s.V X * 5) % 65536, PC := (s.PC + 2) % 65536 }
    else if OPCODE &&& 0x00FF = 0x30 then
      { s with INDEX := (0xA0 + s.V X * 10) % 65536, PC := (s.PC + 2) % 65536 }
    else if OPCODE &&& 0x00FF = 0x33 then
      let r1 := Function.update s.RAM s.INDEX (s.V X / 100)
      let r2 := Function.update r1 (s.INDEX + 1) (s.V X / 10 % 10)
      let r3 := Function.update r2 (s.INDEX + 2) (s.V X % 10)
      { s with RAM := r3, PC := (s.PC + 2) % 65536 }
    else if OPCODE &&& 0x00FF = 0x55 then
      { s with RAM := (List.range (X + 1)).foldl
                 (fun r i => Function.update r (s.INDEX + i) (s.V i)) s.RAM
               PC := (s.PC + 2) % 65536 }
    else if OPCODE &&& 0x00FF = 0x65 then
      { s with V := (List.range (X + 1)).foldl
                 (fun v i => Function.update v i (s.RAM (s.INDEX + i))) s.V
               PC := (s.PC + 2) % 65536 }
    else
      { s with PC := (s.PC + 2) % 65536 }
  else
    { s with PC := (s.PC + 2) % 65536 }

/-- The list of RAM indices that one call of `chip8_core::execute`
subscripts `RAM` with, in source order: the two fetch reads `RAM[PC]`,
`RAM[PC + 1]`; the sprite-row reads `RAM[INDEX + yline]` of DXYN; the
three BCD writes of FX33; and the block reads/writes `RAM[INDEX + i]`
of FX55/FX65. -/
def ramAccesses (s : Chip8State) : List Nat :=
  let OPCODE := fetch s
  [s.PC, s.PC + 1] ++
    (if OPCODE &&& 0xF000 = 0xD000 then
      (List.range (OPCODE &&& 0x000F)).map (fun yline => s.INDEX + yline)
    else if OPCODE &&& 0xF000 = 0xF000 then
      if OPCODE &&& 0x00FF = 0x33 then [s.INDEX, s.INDEX + 1, s.INDEX + 2]
      else if OPCODE &&& 0x00FF = 0x55 ∨ OPCODE &&& 0x00FF = 0x65 then
        (List.range (((OPCODE &&& 0x0F00) >>> 8) + 1)).map (fun i => s.INDEX + i)
      else []
    else [])


/-- The framebuffer pixel at `(x, y)`: the source stores pixel `(x, y)` in
byte `(x + y * 64) >> 3` at bit `7 - ((x + y * 64) & 7)` of
`DISPLAYBUFFER` (MSB-left packing). -/
def getPixel (fb : Nat → Nat) (x y : Nat) : Bool :=
  Nat.testBit (fb ((x + y * 64) / 8)) (7 - (x + y * 64) % 8)

/-- The DXYN footprint predicate: sprite row `i < N`, column `c < 8` has
its bit set and maps to the framebuffer pixel `(a, b)` with
`a = (X + c) mod 64`, `b = (Y + i) mod 32`. -/
def spriteHits (ram : Nat → Nat) (I X Y N a b : Nat) : Prop :=
  ∃ i, i < N ∧ ∃ c, c < 8 ∧ Nat.testBit (ram (I + i)) (7 - c) ∧
    a = (X + c) % 64 ∧ b = (Y + i) % 32

instance spriteHitsDec (ram : Nat → Nat) (I X Y N a b : Nat) :
    Decidable (spriteHits ram I X Y N a b) := by
  unfold spriteHits
  infer_instance

/-- The DXYN collision predicate: some set sprite bit lands on a pixel
that is already lit in the framebuffer `fb`. -/
def spriteCollides (ram fb : Nat → Nat) (I X Y N : Nat) : Prop :=
  ∃ i, i < N ∧ ∃ c, c < 8 ∧ Nat.testBit (ram (I + i)) (7 - c) ∧
    getPixel fb ((X + c) % 64) ((Y + i) % 32)

instance spriteCollidesDec (ram fb : Nat → Nat) (I X Y N : Nat) :
    Decidable (spriteCollides ram fb I X Y N) := by
  unfold spriteCollides
  infer_instance

/-- The DXYN dirty-cell predicate: some set sprite bit touches a pixel in
dirty-map row `yy`, column chunk `xx`. -/
def spriteMarks (ram : Nat → Nat) (I X Y N yy xx : Nat) : Prop :=
  ∃ i, i < N ∧ ∃ c, c < 8 ∧ Nat.testBit (ram (I + i)) (7 - c) ∧
    yy = (Y + i) % 32 ∧ xx = ((X + c) % 64) / 8

instance spriteMarksDec (ram : Nat → Nat) (I X Y N yy xx : Nat) :
    Decidable (spriteMarks ram I X Y N yy xx) := by
  unfold spriteMarks
  infer_instance

/-- A completely blank machine state (all bytes zero, `PC = 0x200`),
used as the starting point of the concrete test states below. -/
def zeroState : Chip8State :=
  { RAM := fun _ => 0, V := fun _ => 0, PC := 0x200, INDEX := 0, STACK := fun _ => 0,
    SP := 0, DELAYTIMER := 0, SOUNDTIMER := 0, DISPLAYBUFFER := fun _ => 0,
    dirty := fun _ _ => 0, flags := 0, keys := fun _ => 0 }

/-- Concrete state for C2: opcode `D012` (DXYN with N = 2) at `PC = 0x200`
and `INDEX = 0xFFF`, so the second sprite-row read subscripts `RAM[4096]`. -/
def c2StateD : Chip8State :=
  { zeroState with
      RAM := fun i => if i = 0x200 then 0xD0 else if i = 0x201 then 0x12 else 0
      INDEX := 0xFFF }

/-- Concrete state for C2: opcode `BFFF` at `PC = 0x200` with `V0 = 0xFF`,
so `PC` becomes `0xFFF + 0xFF = 0x10FE` without any mask. -/
def c2StateB : Chip8State :=
  { zeroState with
      RAM := fun i => if i = 0x200 then 0xBF else if i = 0x201 then 0xFF else 0
      V := fun i => if i = 0 then 0xFF else 0 }

/-- Concrete state for C3: opcode `00EE` at `PC = 0x200` with `SP = 0`; the
out-of-bounds stack slot 255 holds the sentinel `0xDEAD`. -/
def c3State : Chip8State :=
  { zeroState with
      RAM := fun i => if i = 0x200 then 0x00 else if i = 0x201 then 0xEE else 0
      STACK := fun i => if i = 255 then 0xDEAD else 0 }

/-- Concrete state for C4: the unrecognized opcode `0x0123` at `PC = 0x200`. -/
def c4State : Chip8State :=
  { zeroState with
      RAM := fun i => if i = 0x200 then 0x01 else if i = 0x201 then 0x23 else 0 }

/-- Concrete state for the C4 witness: the unrecognized opcode `0x8008`
(8-group, low nibble 8) at `PC = 0x200`. -/
def c4StateE : Chip8State :=
  { zeroState with
      RAM := fun i => if i = 0x200 then 0x80 else if i = 0x201 then 0x08 else 0 }

/-- Concrete state for C5: `SOUNDTIMER = 0` while the `SOUND` flag (bit 6)
is still set — reachable by letting the sound timer run out down to 1
(which leaves `SOUND` set) and then executing `FX18` with `V[X] = 0`. -/
def c5State : Chip8State :=
  { zeroState with flags := 64 }

/-- Concrete state for the C5 witness: `SOUNDTIMER = 2`, a tick that
decrements the sound timer. -/
def c5wState : Chip8State :=
  { zeroState with SOUNDTIMER := 2 }

/-- Concrete state for C7: opcode `2345` at `PC = 0x200` with `SP = 0`. -/
def c7State : Chip8State :=
  { zeroState with
      RAM := fun i => if i = 0x200 then 0x23 else if i = 0x201 then 0x45 else 0 }

/-- Concrete state for C8: opcode `F11E` at `PC = 0x200` with
`INDEX = 0xFFF` and `V1 = 1` — the boundary case named by the claim. -/
def c8State : Chip8State :=
  { zeroState with
      RAM := fun i => if i = 0x200 then 0xF1 else if i = 0x201 then 0x1E else 0
      INDEX := 0xFFF
      V := fun i => if i = 1 then 1 else 0 }

/-- Concrete state for the C6 witness: opcode `D011` at `PC = 0x200`,
sprite row `0xFF` at `RAM[0x300]`, `V0 = 60`, `V1 = 0`: an 8-pixel row
drawn at x = 60 that wraps around to x = 0..3. -/
def c6State : Chip8State :=
  { zeroState with
      RAM := fun i => if i = 0x200 then 0xD0 else if i = 0x201 then 0x11
                      else if i = 0x300 then 0xFF else 0
      INDEX := 0x300
      V := fun i => if i = 0 then 60 else 0 }

/-!  Helper lemmas about the flag word and the list operations used by the
embedding. -/

/-- The `uint16_t` bitmask `1 << p` for an in-range position is `2 ^ p`. -/
lemma shiftLeft_mask (p : Nat) (hp : p < 16) : (1 <<< p) % 65536 = 2 ^ p := by
  rw [Nat.one_shiftLeft]
  exact Nat.mod_eq_of_lt (by calc 2 ^ p < 2 ^ 16 := Nat.pow_lt_pow_right (by norm_num) hp
                                 _ = 65536 := by norm_num)

/-- Bit `i` of the constant `0xFFFF`. -/
lemma testBit_65535 (i : Nat) : (65535 : Nat).testBit i = decide (i < 16) := by
  have h : (65535 : Nat) = 2 ^ 16 - 1 := by norm_num
  rw [h, Nat.testBit_two_pow_sub_one]

/-- The `flag_manager::get` operation reads the bit at its position. -/
lemma flagGet_eq_testBit (w p : Nat) (hp : p < 16) : flagGet w p = w.testBit p := by
  unfold flagGet
  rw [shiftLeft_mask p hp, Nat.and_two_pow]
  cases h : w.testBit p <;> simp [h, Nat.pos_iff_ne_zero, Nat.pow_eq_zero]

/-- The `flag_manager::set` operation writes the bit at its position. -/
lemma testBit_flagSet_self (w p : Nat) (v : Bool) (hp : p < 16) :
    (flagSet w p v).testBit p = v := by
  unfold flagSet
  rw [shiftLeft_mask p hp]
  cases v with
  | true => simp [Nat.testBit_or]
  | false => simp [Nat.testBit_and, Nat.testBit_xor, testBit_65535, hp]

/-- The `flag_manager::set` operation leaves every other bit alone. -/
lemma testBit_flagSet_other (w p q : Nat) (v : Bool) (hp : p < 16) (hq : q < 16)
    (hne : q ≠ p) : (flagSet w p v).testBit q = w.testBit q := by
  unfold flagSet
  rw [shiftLeft_mask p hp]
  cases v with
  | true => simp [Nat.testBit_or, Nat.testBit_two_pow_of_ne (fun h => hne h.symm)]
  | false =>
    simp [Nat.testBit_and, Nat.testBit_xor, testBit_65535, hq,
      Nat.testBit_two_pow_of_ne (fun h => hne h.symm)]

/-- Get after set at the same position returns the stored value. -/
lemma flagGet_flagSet_self (w p : Nat) (v : Bool) (hp : p < 16) :
    flagGet (flagSet w p v) p = v := by
  rw [flagGet_eq_testBit _ p hp, testBit_flagSet_self w p v hp]

/-- Get after set at a different position is unchanged. -/
lemma flagGet_flagSet_other (w p q : Nat) (v : Bool) (hp : p < 16) (hq : q < 16)
    (hne : q ≠ p) : flagGet (flagSet w p v) q = flagGet w q := by
  rw [flagGet_eq_testBit _ q hq, testBit_flagSet_other w p q v hp hq hne,
    flagGet_eq_testBit w q hq]

/-- Reading a replicated list below its length yields the replicated value. -/
lemma getD_replicate (a d : Nat) : ∀ n i, i < n → (List.replicate n a).getD i d = a := by
  intro n
  induction n with
  | zero => intro i h; omega
  | succ k ih =>
    intro i h
    cases i with
    | zero => rfl
    | succ j =>
      rw [List.replicate_succ, List.getD_cons_succ]
      exact ih j (by omega)

lemma and63 (x : Nat) : x &&& 63 = x % 64 := by
  have h : (63 : Nat) = 2 ^ 6 - 1 := by norm_num
  rw [h, Nat.and_pow_two_sub_one_eq_mod]

lemma and31 (x : Nat) : x &&& 31 = x % 32 := by
  have h : (31 : Nat) = 2 ^ 5 - 1 := by norm_num
  rw [h, Nat.and_pow_two_sub_one_eq_mod]

lemma and7 (x : Nat) : x &&& 7 = x % 8 := by
  have h : (7 : Nat) = 2 ^ 3 - 1 := by norm_num
  rw [h, Nat.and_pow_two_sub_one_eq_mod]

lemma and15 (x : Nat) : x &&& 15 = x % 16 := by
  have h : (15 : Nat) = 2 ^ 4 - 1 := by norm_num
  rw [h, Nat.and_pow_two_sub_one_eq_mod]

lemma shiftRight3 (x : Nat) : x >>> 3 = x / 8 := by
  rw [Nat.shiftRight_eq_div_pow]

lemma shift128 (c : Nat) (hc : c < 8) : (128 : Nat) >>> c = 2 ^ (7 - c) := by
  interval_cases c <;> rfl

lemma and_two_pow_bne (n k : Nat) : (n &&& 2 ^ k != 0) = n.testBit k := by
  rw [Nat.and_two_pow]
  cases h : n.testBit k <;> simp [h, Nat.pos_iff_ne_zero, Nat.pow_eq_zero]

lemma getPixel_toggle (fb : Nat → Nat) (x y a b : Nat)
    (hx : x < 64) (hy : y < 32) (ha : a < 64) (hb : b < 32) :
    getPixel (Function.update fb ((x + y * 64) / 8)
        (fb ((x + y * 64) / 8) ^^^ 2 ^ (7 - (x + y * 64) % 8))) a b =
      (if a = x ∧ b = y then ! getPixel fb a b else getPixel fb a b) := by
  unfold getPixel
  by_cases hab : a = x ∧ b = y
  · obtain ⟨h1, h2⟩ := hab
    subst h1
    subst h2
    rw [Function.update_same]
    simp [Nat.testBit_xor, Nat.testBit_two_pow_self]
  · rw [if_neg hab]
    by_cases hdiv : (a + b * 64) / 8 = (x + y * 64) / 8
    · have hmod : (a + b * 64) % 8 ≠ (x + y * 64) % 8 := by
        intro hmm
        exact hab (by omega)
      rw [hdiv, Function.update_same, Nat.testBit_xor,
        Nat.testBit_two_pow_of_ne (by omega)]
      simp
    · rw [Function.update_noteq hdiv]

lemma stepPx_fb (X y pixel : Nat) (t : DrawState) (c : Nat) (hc : c < 8) (hy : y < 32)
    (a b : Nat) (ha : a < 64) (hb : b < 32) :
    getPixel (stepPx X y pixel t c).fb a b =
      (if Nat.testBit pixel (7 - c) ∧ a = (X + c) % 64 ∧ b = y
       then ! getPixel t.fb a b else getPixel t.fb a b) := by
  unfold stepPx
  have hcond : (pixel &&& (128 >>> c) != 0) = pixel.testBit (7 - c) := by
    rw [shift128 c hc, and_two_pow_bne]
  by_cases hbit : pixel.testBit (7 - c)
  · rw [hcond, if_pos hbit]
    dsimp only
    rw [and63, Nat.one_shiftLeft, and7, shiftRight3]
    rw [getPixel_toggle t.fb ((X + c) % 64) y a b (Nat.mod_lt _ (by norm_num)) hy ha hb]
    simp [hbit]
  · rw [hcond, if_neg hbit]
    simp [hbit]

lemma stepPx_vf (X y pixel : Nat) (t : DrawState) (c : Nat) (hc : c < 8) (hy : y < 32) :
    (stepPx X y pixel t c).vf =
      (if Nat.testBit pixel (7 - c) ∧ getPixel t.fb ((X + c) % 64) y then 1 else t.vf) := by
  unfold stepPx
  have hcond : (pixel &&& (128 >>> c) != 0) = pixel.testBit (7 - c) := by
    rw [shift128 c hc, and_two_pow_bne]
  by_cases hbit : pixel.testBit (7 - c)
  · rw [hcond, if_pos hbit]
    dsimp only
    rw [and63, Nat.one_shiftLeft, and7, shiftRight3, and_two_pow_bne]
    simp [hbit, getPixel]
  · rw [hcond, if_neg hbit]
    simp [hbit]

lemma stepPx_dirty (X y pixel : Nat) (t : DrawState) (c : Nat) (hc : c < 8)
    (yy xx : Nat) :
    (stepPx X y pixel t c).dirty yy xx =
      (if Nat.testBit pixel (7 - c) ∧ yy = y ∧ xx = ((X + c) % 64) / 8
       then 1 else t.dirty yy xx) := by
  unfold stepPx
  have hcond : (pixel &&& (128 >>> c) != 0) = pixel.testBit (7 - c) := by
    rw [shift128 c hc, and_two_pow_bne]
  by_cases hbit : pixel.testBit (7 - c)
  · rw [hcond, if_pos hbit]
    dsimp only
    rw [and63]
    simp [hbit]
  · rw [hcond, if_neg hbit]
    simp [hbit]

lemma foldl_range_succ (f : DrawState → Nat → DrawState) (t : DrawState) (n : Nat) :
    (List.range (n + 1)).foldl f t = f ((List.range n).foldl f t) n := by
  rw [List.range_succ, List.foldl_append, List.foldl_cons, List.foldl_nil]

lemma row_fb (X y pixel : Nat) (hy : y < 32) :
    ∀ n, n ≤ 8 → ∀ t : DrawState, ∀ a b, a < 64 → b < 32 →
      getPixel (((List.range n).foldl (stepPx X y pixel) t).fb) a b =
        (if ∃ c, c < n ∧ Nat.testBit pixel (7 - c) ∧ a = (X + c) % 64 ∧ b = y
         then ! getPixel t.fb a b else getPixel t.fb a b) := by
  intro n
  induction n with
  | zero =>
    intro _ t a b _ _
    simp
  | succ m ih =>
    intro hm t a b ha hb
    rw [foldl_range_succ]
    rw [stepPx_fb X y pixel _ m (by omega) hy a b ha hb]
    rw [ih (by omega) t a b ha hb]
    by_cases hnew : Nat.testBit pixel (7 - m) ∧ a = (X + m) % 64 ∧ b = y
    · have hold : ¬ ∃ c, c < m ∧ Nat.testBit pixel (7 - c) ∧ a = (X + c) % 64 ∧ b = y := by
        rintro ⟨c, hc, _, hac, _⟩
        obtain ⟨_, ham, _⟩ := hnew
        omega
      rw [if_pos hnew, if_neg hold, if_pos ⟨m, Nat.lt_succ_self m, hnew⟩]
    · rw [if_neg hnew]
      by_cases hold : ∃ c, c < m ∧ Nat.testBit pixel (7 - c) ∧ a = (X + c) % 64 ∧ b = y
      · rw [if_pos hold]
        obtain ⟨c, hc, hp⟩ := hold
        rw [if_pos ⟨c, Nat.lt_succ_of_lt hc, hp⟩]
      · rw [if_neg hold, if_neg]
        rintro ⟨c, hc, hp⟩
        rcases Nat.lt_or_ge c m with h | h
        · exact hold ⟨c, h, hp⟩
        · have hcm : c = m := by omega
          subst hcm
          exact hnew hp

lemma row_vf (X y pixel : Nat) (hy : y < 32) :
    ∀ n, n ≤ 8 → ∀ t : DrawState,
      ((List.range n).foldl (stepPx X y pixel) t).vf =
        (if ∃ c, c < n ∧ Nat.testBit pixel (7 - c) ∧ getPixel t.fb ((X + c) % 64) y
         then 1 else t.vf) := by
  intro n
  induction n with
  | zero =>
    intro _ t
    simp
  | succ m ih =>
    intro hm t
    rw [foldl_range_succ]
    rw [stepPx_vf X y pixel _ m (by omega) hy]
    have hfb : getPixel (((List.range m).foldl (stepPx X y pixel) t).fb) ((X + m) % 64) y
        = getPixel t.fb ((X + m) % 64) y := by
      rw [row_fb X y pixel hy m (by omega) t ((X + m) % 64) y (Nat.mod_lt _ (by norm_num)) hy]
      rw [if_neg]
      rintro ⟨c, hc, _, hac, _⟩
      omega
    rw [hfb, ih (by omega) t]
    by_cases hnew : Nat.testBit pixel (7 - m) ∧ getPixel t.fb ((X + m) % 64) y
    · rw [if_pos hnew, if_pos ⟨m, Nat.lt_succ_self m, hnew⟩]
    · rw [if_neg hnew]
      by_cases hold : ∃ c, c < m ∧ Nat.testBit pixel (7 - c) ∧ getPixel t.fb ((X + c) % 64) y
      · rw [if_pos hold]
        obtain ⟨c, hc, hp⟩ := hold
        rw [if_pos ⟨c, Nat.lt_succ_of_lt hc, hp⟩]
      · rw [if_neg hold, if_neg]
        rintro ⟨c, hc, hp⟩
        rcases Nat.lt_or_ge c m with h | h
        · exact hold ⟨c, h, hp⟩
        · have hcm : c = m := by omega
          subst hcm
          exact hnew hp

lemma row_dirty (X y pixel : Nat) :
    ∀ n, n ≤ 8 → ∀ t : DrawState, ∀ yy xx,
      ((List.range n).foldl (stepPx X y pixel) t).dirty yy xx =
        (if ∃ c, c < n ∧ Nat.testBit pixel (7 - c) ∧ yy = y ∧ xx = ((X + c) % 64) / 8
         then 1 else t.dirty yy xx) := by
  intro n
  induction n with
  | zero =>
    intro _ t yy xx
    simp
  | succ m ih =>
    intro hm t yy xx
    rw [foldl_range_succ]
    rw [stepPx_dirty X y pixel _ m (by omega) yy xx]
    rw [ih (by omega) t yy xx]
    by_cases hnew : Nat.testBit pixel (7 - m) ∧ yy = y ∧ xx = ((X + m) % 64) / 8
    · rw [if_pos hnew, if_pos ⟨m, Nat.lt_succ_self m, hnew⟩]
    · rw [if_neg hnew]
      by_cases hold : ∃ c, c < m ∧ Nat.testBit pixel (7 - c) ∧ yy = y ∧ xx = ((X + c) % 64) / 8
      · rw [if_pos hold]
        obtain ⟨c, hc, hp⟩ := hold
        rw [if_pos ⟨c, Nat.lt_succ_of_lt hc, hp⟩]
      · rw [if_neg hold, if_neg]
        rintro ⟨c, hc, hp⟩
        rcases Nat.lt_or_ge c m with h | h
        · exact hold ⟨c, h, hp⟩
        · have hcm : c = m := by omega
          subst hcm
          exact hnew hp

lemma stepRow_apply (X Y I : Nat) (ram : Nat → Nat) (t : DrawState) (yline : Nat) :
    stepRow X Y I ram t yline =
      (List.range 8).foldl (stepPx X ((Y + yline) % 32) (ram (I + yline))) t := by
  unfold stepRow
  rw [and31]

lemma spriteHits_zero (ram : Nat → Nat) (I X Y a b : Nat) :
    ¬ spriteHits ram I X Y 0 a b := by
  rintro ⟨i, hi, _⟩
  omega

lemma spriteHits_succ (ram : Nat → Nat) (I X Y k a b : Nat) :
    spriteHits ram I X Y (k + 1) a b ↔
      spriteHits ram I X Y k a b ∨
        (∃ c, c < 8 ∧ Nat.testBit (ram (I + k)) (7 - c) ∧
          a = (X + c) % 64 ∧ b = (Y + k) % 32) := by
  constructor
  · rintro ⟨i, hi, hp⟩
    rcases Nat.lt_or_ge i k with h | h
    · exact Or.inl ⟨i, h, hp⟩
    · have hik : i = k := by omega
      subst hik
      exact Or.inr hp
  · rintro (⟨i, hi, hp⟩ | hp)
    · exact ⟨i, Nat.lt_succ_of_lt hi, hp⟩
    · exact ⟨k, Nat.lt_succ_self k, hp⟩

lemma spriteHits_not_lastRow (ram : Nat → Nat) (I X Y k a : Nat) (hk : k ≤ 15) :
    ¬ spriteHits ram I X Y k a ((Y + k) % 32) := by
  rintro ⟨i, hi, c, hc, _, _, hb⟩
  omega

lemma sprite_fb (X Y I : Nat) (ram fb0 : Nat → Nat) (d0 : Nat → Nat → Nat) :
    ∀ m, m ≤ 16 → ∀ a b, a < 64 → b < 32 →
      getPixel (((List.range m).foldl (stepRow X Y I ram) ⟨fb0, d0, 0⟩).fb) a b =
        (if spriteHits ram I X Y m a b
         then ! getPixel fb0 a b else getPixel fb0 a b) := by
  intro m
  induction m with
  | zero =>
    intro _ a b _ _
    rw [if_neg (spriteHits_zero ram I X Y a b)]
    simp
  | succ k ih =>
    intro hm a b ha hb
    rw [foldl_range_succ, stepRow_apply]
    rw [row_fb X ((Y + k) % 32) (ram (I + k)) (Nat.mod_lt _ (by norm_num)) 8
      (le_refl 8) _ a b ha hb]
    rw [ih (by omega) a b ha hb]
    by_cases hnew : ∃ c, c < 8 ∧ Nat.testBit (ram (I + k)) (7 - c) ∧
        a = (X + c) % 64 ∧ b = (Y + k) % 32
    · have hold : ¬ spriteHits ram I X Y k a b := by
        obtain ⟨c2, hc2, _, _, hbk⟩ := hnew
        rw [hbk]
        exact spriteHits_not_lastRow ram I X Y k a (by omega)
      rw [if_pos hnew, if_neg hold,
        if_pos ((spriteHits_succ ram I X Y k a b).mpr (Or.inr hnew))]
    · rw [if_neg hnew]
      by_cases hold : spriteHits ram I X Y k a b
      · rw [if_pos hold, if_pos ((spriteHits_succ ram I X Y k a b).mpr (Or.inl hold))]
      · rw [if_neg hold, if_neg]
        intro hsucc
        rcases (spriteHits_succ ram I X Y k a b).mp hsucc with h | h
        · exact hold h
        · exact hnew h

lemma spriteCollides_zero (ram fb : Nat → Nat) (I X Y : Nat) :
    ¬ spriteCollides ram fb I X Y 0 := by
  rintro ⟨i, hi, _⟩
  omega

lemma spriteCollides_succ (ram fb : Nat → Nat) (I X Y k : Nat) :
    spriteCollides ram fb I X Y (k + 1) ↔
      spriteCollides ram fb I X Y k ∨
        (∃ c, c < 8 ∧ Nat.testBit (ram (I + k)) (7 - c) ∧
          getPixel fb ((X + c) % 64) ((Y + k) % 32)) := by
  constructor
  · rintro ⟨i, hi, hp⟩
    rcases Nat.lt_or_ge i k with h | h
    · exact Or.inl ⟨i, h, hp⟩
    · have hik : i = k := by omega
      subst hik
      exact Or.inr hp
  · rintro (⟨i, hi, hp⟩ | hp)
    · exact ⟨i, Nat.lt_succ_of_lt hi, hp⟩
    · exact ⟨k, Nat.lt_succ_self k, hp⟩

lemma spriteMarks_zero (ram : Nat → Nat) (I X Y yy xx : Nat) :
    ¬ spriteMarks ram I X Y 0 yy xx := by
  rintro ⟨i, hi, _⟩
  omega

lemma spriteMarks_succ (ram : Nat → Nat) (I X Y k yy xx : Nat) :
    spriteMarks ram I X Y (k + 1) yy xx ↔
      spriteMarks ram I X Y k yy xx ∨
        (∃ c, c < 8 ∧ Nat.testBit (ram (I + k)) (7 - c) ∧
          yy = (Y + k) % 32 ∧ xx = ((X + c) % 64) / 8) := by
  constructor
  · rintro ⟨i, hi, hp⟩
    rcases Nat.lt_or_ge i k with h | h
    · exact Or.inl ⟨i, h, hp⟩
    · have hik : i = k := by omega
      subst hik
      exact Or.inr hp
  · rintro (⟨i, hi, hp⟩ | hp)
    · exact ⟨i, Nat.lt_succ_of_lt hi, hp⟩
    · exact ⟨k, Nat.lt_succ_self k, hp⟩

lemma sprite_vf (X Y I : Nat) (ram fb0 : Nat → Nat) (d0 : Nat → Nat → Nat) :
    ∀ m, m ≤ 16 →
      ((List.range m).foldl (stepRow X Y I ram) ⟨fb0, d0, 0⟩).vf =
        (if spriteCollides ram fb0 I X Y m then 1 else 0) := by
  intro m
  induction m with
  | zero =>
    intro _
    rw [if_neg (spriteCollides_zero ram fb0 I X Y)]
    rfl
  | succ k ih =>
    intro hm
    rw [foldl_range_succ, stepRow_apply]
    rw [row_vf X ((Y + k) % 32) (ram (I + k)) (Nat.mod_lt _ (by norm_num)) 8 (le_refl 8)]
    have hfb : ∀ c : Nat,
        getPixel (((List.range k).foldl (stepRow X Y I ram) ⟨fb0, d0, 0⟩).fb)
            ((X + c) % 64) ((Y + k) % 32)
          = getPixel fb0 ((X + c) % 64) ((Y + k) % 32) := by
      intro c
      rw [sprite_fb X Y I ram fb0 d0 k (by omega) ((X + c) % 64) ((Y + k) % 32)
        (Nat.mod_lt _ (by norm_num)) (Nat.mod_lt _ (by norm_num))]
      rw [if_neg (spriteHits_not_lastRow ram I X Y k ((X + c) % 64) (by omega))]
    simp only [hfb]
    rw [ih (by omega)]
    by_cases hnew : ∃ c, c < 8 ∧ Nat.testBit (ram (I + k)) (7 - c) ∧
        getPixel fb0 ((X + c) % 64) ((Y + k) % 32)
    · rw [if_pos hnew, if_pos ((spriteCollides_succ ram fb0 I X Y k).mpr (Or.inr hnew))]
    · rw [if_neg hnew]
      by_cases hold : spriteCollides ram fb0 I X Y k
      · rw [if_pos hold, if_pos ((spriteCollides_succ ram fb0 I X Y k).mpr (Or.inl hold))]
      · rw [if_neg hold, if_neg]
        intro hsucc
        rcases (spriteCollides_succ ram fb0 I X Y k).mp hsucc with h | h
        · exact hold h
        · exact hnew h

lemma sprite_dirty (X Y I : Nat) (ram fb0 : Nat → Nat) (d0 : Nat → Nat → Nat) :
    ∀ m, m ≤ 16 → ∀ yy xx,
      ((List.range m).foldl (stepRow X Y I ram) ⟨fb0, d0, 0⟩).dirty yy xx =
        (if spriteMarks ram I X Y m yy xx then 1 else d0 yy xx) := by
  intro m
  induction m with
  | zero =>
    intro _ yy xx
    rw [if_neg (spriteMarks_zero ram I X Y yy xx)]
    rfl
  | succ k ih =>
    intro hm yy xx
    rw [foldl_range_succ, stepRow_apply]
    rw [row_dirty X ((Y + k) % 32) (ram (I + k)) 8 (le_refl 8) _ yy xx]
    rw [ih (by omega) yy xx]
    by_cases hnew : ∃ c, c < 8 ∧ Nat.testBit (ram (I + k)) (7 - c) ∧
        yy = (Y + k) % 32 ∧ xx = ((X + c) % 64) / 8
    · rw [if_pos hnew, if_pos ((spriteMarks_succ ram I X Y k yy xx).mpr (Or.inr hnew))]
    · rw [if_neg hnew]
      by_cases hold : spriteMarks ram I X Y k yy xx
      · rw [if_pos hold, if_pos ((spriteMarks_succ ram I X Y k yy xx).mpr (Or.inl hold))]
      · rw [if_neg hold, if_neg]
        intro hsucc
        rcases (spriteMarks_succ ram I X Y k yy xx).mp hsucc with h | h
        · exact hold h
        · exact hnew h


/-- C1: the claim states that after `load_rom` the RAM bytes at
`0x50..0xA0` equal the 80-byte canonical CHIP-8 font and all RAM outside
the font and ROM regions is 0.  The code declares `FONTSET` as
`uint16_t[80]` and copies `sizeof(FONTSET)` = 160 bytes, so on the
little-endian target every canonical font byte is followed by a zero
byte: `RAM[0x51]` is 0 where the canonical font (entry 1 of the table,
`0x90`) should be, and the copy spills into `0xA0..0xEF`
(`RAM[0xA0] = 0xF0 ≠ 0`).  This theorem evaluates the code at the failing
input (an empty ROM). -/
theorem C1_fontset_copy_diverges :
    (load_rom zeroState []).RAM 0x50 = 0xF0 ∧
    (load_rom zeroState []).RAM 0x51 = 0 ∧
    FONTSET.getD 1 0 = 0x90 ∧
    (load_rom zeroState []).RAM 0xA0 = 0xF0 := by
  decide

/-- C2: the claim states that every RAM index `execute` uses is reduced
to `[0, 4096)` by an `& 0xFFF` mask, naming the BNNN target PC, the DXYN
sprite reads and the FX33/FX55/FX65 accesses.  No such mask exists in the
code: at `c2StateD` (opcode `D012`, `INDEX = 0xFFF`) the sprite-row read
subscripts `RAM[4096]`, and at `c2StateB` (opcode `BFFF`, `V0 = 0xFF`)
the new PC is `0x10FE`, not `0x0FE`. -/
theorem C2_ram_access_unmasked :
    (¬ ∀ i ∈ ramAccesses c2StateD, i < 4096) ∧
    4096 ∈ ramAccesses c2StateD ∧
    (execute c2StateB 0).PC = 0x10FE := by
  refine ⟨fun hall => ?_, by decide, by decide⟩
  have h := hall 4096 (by decide)
  omega

/-- C3 counterexample: the claim states that executing `00EE` with
`SP = 0` leaves SP clamped at 0 and does not access the stack out of
bounds.  At `c3State` (opcode `00EE`, `SP = 0`) the `--SP` of the source
wraps the `uint8_t` stack pointer to 255 and PC is read from the
out-of-bounds slot `STACK[255]`. -/
theorem C3_counterexample :
    c3State.SP = 0 ∧ (execute c3State 0).SP = 255 ∧ (execute c3State 0).PC = 0xDEAD := by
  decide

/-- C3 amended: executing `00EE` with `SP = 0` wraps SP to 255 (the
`uint8_t` decrement) and loads PC from `STACK[255]`, an out-of-bounds
stack index; SP is not clamped at 0. -/
theorem C3_ret_underflow_wraps (s : Chip8State) (r : Nat)
    (h0 : fetch s &&& 0xF000 = 0x0000) (hee : fetch s &&& 0x00FF = 0xEE)
    (hsp : s.SP = 0) :
    execute s r = { s with SP := 255, PC := s.STACK 255 } := by
  unfold execute
  simp only [h0, hee, hsp]
  norm_num

/-- C3 witness: the amended theorem applied at the concrete state. -/
theorem C3_ret_underflow_wraps_witness :
    execute c3State 0 = { c3State with SP := 255, PC := c3State.STACK 255 } :=
  C3_ret_underflow_wraps c3State 0 (by decide) (by decide) (by decide)

/-- C4 counterexample: the claim states that every unrecognized opcode
(including unrecognized `0x0NNN` ones) advances PC by exactly 2 and
changes nothing else.  The inner `default: break;` of the `0x0000` group
does not advance PC: at `c4State` (opcode `0x0123`) `execute` returns the
state unchanged, with PC still `0x200` instead of `0x202`. -/
theorem C4_counterexample :
    fetch c4State = 0x0123 ∧ execute c4State 0 = c4State ∧
    (execute c4State 0).PC = 0x200 := by
  exact ⟨by decide, rfl, by decide⟩

/-- C4 amended: unrecognized opcodes in the `0x8`, `0xE` and `0xF` groups
advance PC by exactly 2 and leave all other state unchanged, but
unrecognized `0x0NNN` opcodes (low byte not `E0`/`EE`/`FD`) leave the
entire state unchanged, including PC. -/
theorem C4_unrecognized_amended (s : Chip8State) (r : Nat) :
    (fetch s &&& 0xF000 = 0x0000 → fetch s &&& 0x00FF ≠ 0xE0 →
      fetch s &&& 0x00FF ≠ 0xEE → fetch s &&& 0x00FF ≠ 0xFD → execute s r = s) ∧
    (fetch s &&& 0xF000 = 0x8000 →
      fetch s &&& 0x000F ≠ 0x0 → fetch s &&& 0x000F ≠ 0x1 → fetch s &&& 0x000F ≠ 0x2 →
      fetch s &&& 0x000F ≠ 0x3 → fetch s &&& 0x000F ≠ 0x4 → fetch s &&& 0x000F ≠ 0x5 →
      fetch s &&& 0x000F ≠ 0x6 → fetch s &&& 0x000F ≠ 0x7 → fetch s &&& 0x000F ≠ 0xE →
      execute s r = { s with PC := (s.PC + 2) % 65536 }) ∧
    (fetch s &&& 0xF000 = 0xE000 → fetch s &&& 0x00FF ≠ 0x9E → fetch s &&& 0x00FF ≠ 0xA1 →
      execute s r = { s with PC := (s.PC + 2) % 65536 }) ∧
    (fetch s &&& 0xF000 = 0xF000 →
      fetch s &&& 0x00FF ≠ 0x07 → fetch s &&& 0x00FF ≠ 0x15 → fetch s &&& 0x00FF ≠ 0x18 →
      fetch s &&& 0x00FF ≠ 0x0A → fetch s &&& 0x00FF ≠ 0x1E → fetch s &&& 0x00FF ≠ 0x29 →
      fetch s &&& 0x00FF ≠ 0x30 → fetch s &&& 0x00FF ≠ 0x33 → fetch s &&& 0x00FF ≠ 0x55 →
      fetch s &&& 0x00FF ≠ 0x65 → execute s r = { s with PC := (s.PC + 2) % 65536 }) := by
  refine ⟨fun h h1 h2 h3 => ?_, fun h h1 h2 h3 h4 h5 h6 h7 h8 h9 => ?_,
    fun h h1 h2 => ?_, fun h h1 h2 h3 h4 h5 h6 h7 h8 h9 h10 => ?_⟩
  · unfold execute
    simp only [h, h1, h2, h3]
    norm_num
  · unfold execute
    simp only [h, h1, h2, h3, h4, h5, h6, h7, h8, h9]
    norm_num
  · unfold execute
    simp only [h, h1, h2]
    norm_num
  · unfold execute
    simp only [h, h1, h2, h3, h4, h5, h6, h7, h8, h9, h10]
    norm_num

/-- C4 witness: the amended theorem applied to the unrecognized 8-group
opcode `0x8008` at a concrete state. -/
theorem C4_unrecognized_amended_witness :
    execute c4StateE 0 = { c4StateE with PC := (c4StateE.PC + 2) % 65536 } :=
  (C4_unrecognized_amended c4StateE 0).2.1 (by decide) (by decide) (by decide)
    (by decide) (by decide) (by decide) (by decide) (by decide) (by decide) (by decide)

/-- C5 counterexample: the claim states that on a 60 Hz timer service
tick the `SOUND` flag is cleared whenever `SOUNDTIMER` is not positive,
so that `SOUND` is true iff `SOUNDTIMER > 0` on a tick boundary.  The
code has no else branch: at `c5State` (`SOUNDTIMER = 0`, `SOUND` set)
the tick leaves `SOUND` set while `SOUNDTIMER` stays 0. -/
theorem C5_counterexample :
    c5State.SOUNDTIMER = 0 ∧
    (gpu_tick c5State).SOUNDTIMER = 0 ∧
    flagGet (gpu_tick c5State).flags SOUND = true := by
  decide

/-- C5 amended: on every 60 Hz timer service tick, `DRAW_PENDING_CPU`
(bit `CPU_CYCLE_DRAW_FLAG`) ends cleared and `FRAME_READY_GPU` (bit
`GPU_CYCLE_DRAW_FLAG`) ends set iff either was set before; `DELAYTIMER`
and `SOUNDTIMER` are decremented when positive; when `SOUNDTIMER > 0` the
`SOUND` flag is set and then cleared again if the timer reaches 0, so
after a decrementing tick `SOUND` is true iff the new `SOUNDTIMER` is
positive; when `SOUNDTIMER = 0` the `SOUND` flag is left unchanged. -/
theorem C5_timer_service_amended (s : Chip8State) :
    flagGet (gpu_tick s).flags CPU_CYCLE_DRAW_FLAG = false ∧
    flagGet (gpu_tick s).flags GPU_CYCLE_DRAW_FLAG =
      (flagGet s.flags CPU_CYCLE_DRAW_FLAG || flagGet s.flags GPU_CYCLE_DRAW_FLAG) ∧
    (gpu_tick s).DELAYTIMER = (if 0 < s.DELAYTIMER then s.DELAYTIMER - 1 else s.DELAYTIMER) ∧
    (gpu_tick s).SOUNDTIMER = (if 0 < s.SOUNDTIMER then s.SOUNDTIMER - 1 else s.SOUNDTIMER) ∧
    flagGet (gpu_tick s).flags SOUND =
      (if 1 < s.SOUNDTIMER then true
       else if s.SOUNDTIMER = 1 then false
       else flagGet s.flags SOUND) ∧
    (0 < s.SOUNDTIMER →
      flagGet (gpu_tick s).flags SOUND = decide (0 < (gpu_tick s).SOUNDTIMER)) := by
  unfold gpu_tick
  rcases hst : s.SOUNDTIMER with _ | st
  · by_cases hc : flagGet s.flags 4 <;>
      by_cases hd : 0 < s.DELAYTIMER <;>
        simp [hc, hd, hst, flagGet_flagSet_self, flagGet_flagSet_other,
          CPU_CYCLE_DRAW_FLAG, GPU_CYCLE_DRAW_FLAG, SOUND]
  · rcases st with _ | st2
    · by_cases hc : flagGet s.flags 4 <;>
        by_cases hd : 0 < s.DELAYTIMER <;>
          simp [hc, hd, hst, flagGet_flagSet_self, flagGet_flagSet_other,
            CPU_CYCLE_DRAW_FLAG, GPU_CYCLE_DRAW_FLAG, SOUND]
    · by_cases hc : flagGet s.flags 4 <;>
        by_cases hd : 0 < s.DELAYTIMER <;>
          simp [hc, hd, hst, flagGet_flagSet_self, flagGet_flagSet_other,
            CPU_CYCLE_DRAW_FLAG, GPU_CYCLE_DRAW_FLAG, SOUND]

/-- C5 witness: the amended theorem applied at a concrete state with
`SOUNDTIMER = 2`, discharging the decrementing-tick hypothesis. -/
theorem C5_timer_service_amended_witness :
    flagGet (gpu_tick c5wState).flags SOUND = decide (0 < (gpu_tick c5wState).SOUNDTIMER) :=
  (C5_timer_service_amended c5wState).2.2.2.2.2 (by decide)

/-- C6: executing DXYN reads the N sprite rows `RAM[I + row]`, XORs each
set sprite bit into the framebuffer pixel at
`(x = (V[X] + col) mod 64, y = (V[Y] + row) mod 32)` (so a pixel ends
toggled exactly when a set sprite bit maps to it), sets `VF` to 1 iff
some such pixel was 1 before being XORed and to 0 otherwise, leaves the
other V registers alone, marks `dirty[y][x/8] = 1` for every pixel
touched, sets DRAW_PENDING_CPU, and advances PC by 2. -/
theorem C6_dxyn_draw (s : Chip8State) (r : Nat) (hd : fetch s &&& 0xF000 = 0xD000) :
    (∀ a b, a < 64 → b < 32 →
      getPixel (execute s r).DISPLAYBUFFER a b =
        (if spriteHits s.RAM s.INDEX (s.V ((fetch s >>> 8) &&& 0x0F))
              (s.V ((fetch s >>> 4) &&& 0x0F)) (fetch s &&& 0x000F) a b
         then ! getPixel s.DISPLAYBUFFER a b else getPixel s.DISPLAYBUFFER a b)) ∧
    ((execute s r).V 0xF =
      (if spriteCollides s.RAM s.DISPLAYBUFFER s.INDEX (s.V ((fetch s >>> 8) &&& 0x0F))
            (s.V ((fetch s >>> 4) &&& 0x0F)) (fetch s &&& 0x000F) then 1 else 0)) ∧
    (∀ q, q ≠ 0xF → (execute s r).V q = s.V q) ∧
    (∀ yy xx, spriteMarks s.RAM s.INDEX (s.V ((fetch s >>> 8) &&& 0x0F))
        (s.V ((fetch s >>> 4) &&& 0x0F)) (fetch s &&& 0x000F) yy xx →
      (execute s r).dirty yy xx = 1) ∧
    flagGet (execute s r).flags CPU_CYCLE_DRAW_FLAG = true ∧
    (execute s r).PC = (s.PC + 2) % 65536 ∧
    ramAccesses s = [s.PC, s.PC + 1] ++
      (List.range (fetch s &&& 0x000F)).map (fun yline => s.INDEX + yline) := by
  have e : execute s r = { s with
      DISPLAYBUFFER := (drawSprite (s.V ((fetch s >>> 8) &&& 0x0F))
        (s.V ((fetch s >>> 4) &&& 0x0F)) (fetch s &&& 0x000F) s.INDEX s.RAM
        s.DISPLAYBUFFER s.dirty).fb
      dirty := (drawSprite (s.V ((fetch s >>> 8) &&& 0x0F))
        (s.V ((fetch s >>> 4) &&& 0x0F)) (fetch s &&& 0x000F) s.INDEX s.RAM
        s.DISPLAYBUFFER s.dirty).dirty
      V := Function.update s.V 0xF (drawSprite (s.V ((fetch s >>> 8) &&& 0x0F))
        (s.V ((fetch s >>> 4) &&& 0x0F)) (fetch s &&& 0x000F) s.INDEX s.RAM
        s.DISPLAYBUFFER s.dirty).vf
      PC := (s.PC + 2) % 65536
      flags := flagSet s.flags CPU_CYCLE_DRAW_FLAG true } := by
    unfold execute
    simp only [hd]
    norm_num
  have hN : fetch s &&& 0x000F ≤ 16 := by
    rw [and15]
    have := Nat.mod_lt (fetch s) (show 0 < 16 by norm_num)
    omega
  refine ⟨?_, ?_, ?_, ?_, ?_, ?_, ?_⟩
  · intro a b ha hb
    rw [e]
    show getPixel ((drawSprite _ _ _ _ _ _ _).fb) a b = _
    unfold drawSprite
    rw [sprite_fb _ _ _ _ _ _ _ hN a b ha hb]
  · rw [e]
    unfold drawSprite
    rw [sprite_vf _ _ _ _ _ _ _ hN]
    dsimp only
    rw [Function.update_same]
  · intro q hq
    rw [e]
    show Function.update s.V 0xF _ q = s.V q
    rw [Function.update_noteq hq]
  · intro yy xx hmark
    rw [e]
    show (drawSprite _ _ _ _ _ _ _).dirty yy xx = 1
    unfold drawSprite
    rw [sprite_dirty _ _ _ _ _ _ _ hN yy xx, if_pos hmark]
  · rw [e]
    show flagGet (flagSet s.flags CPU_CYCLE_DRAW_FLAG true) CPU_CYCLE_DRAW_FLAG = true
    exact flagGet_flagSet_self s.flags CPU_CYCLE_DRAW_FLAG true (by norm_num [CPU_CYCLE_DRAW_FLAG])
  · rw [e]
  · unfold ramAccesses
    simp only [hd]
    norm_num

/-- C6 witness: the theorem applied at a concrete state drawing an
8-pixel row at x = 60 (wrapping to x = 0..3) on a blank screen. -/
theorem C6_dxyn_draw_witness :
    (execute c6State 0).PC = 0x202 ∧
    flagGet (execute c6State 0).flags CPU_CYCLE_DRAW_FLAG = true ∧
    (execute c6State 0).dirty 0 0 = 1 ∧
    (execute c6State 0).V 0xF = 0 := by
  have h := C6_dxyn_draw c6State 0 (by decide)
  refine ⟨?_, h.2.2.2.2.1, ?_, ?_⟩
  · rw [h.2.2.2.2.2.1]
    decide
  · exact h.2.2.2.1 0 0 (by decide)
  · rw [h.2.1, if_neg (by decide)]

/-- C7: executing `2NNN` with `SP < 16` pushes `PC + 2` onto the stack,
increments SP and jumps to NNN; with `SP = 16` it leaves the stack and SP
unchanged and advances PC by 2; hence SP never leaves `[0, 16]` across
calls. -/
theorem C7_call_stack (s : Chip8State) (r : Nat) (h : fetch s &&& 0xF000 = 0x2000) :
    (s.SP < 16 → execute s r = { s with
        STACK := Function.update s.STACK s.SP ((s.PC + 2) % 65536)
        SP := s.SP + 1
        PC := fetch s &&& 0x0FFF }) ∧
    (s.SP = 16 → execute s r = { s with PC := (s.PC + 2) % 65536 }) ∧
    (s.SP ≤ 16 → (execute s r).SP ≤ 16) := by
  refine ⟨fun hsp => ?_, fun hsp => ?_, fun hsp => ?_⟩
  · unfold execute
    simp only [h]
    norm_num [hsp]
  · unfold execute
    simp only [h, hsp]
    norm_num
  · rcases Nat.lt_or_ge s.SP 16 with hlt | hge
    · have e : execute s r = { s with
          STACK := Function.update s.STACK s.SP ((s.PC + 2) % 65536)
          SP := s.SP + 1
          PC := fetch s &&& 0x0FFF } := by
        unfold execute
        simp only [h]
        norm_num [hlt]
      rw [e]
      show s.SP + 1 ≤ 16
      omega
    · have h16 : s.SP = 16 := by omega
      have e : execute s r = { s with PC := (s.PC + 2) % 65536 } := by
        unfold execute
        simp only [h, h16]
        norm_num
      rw [e]
      show s.SP ≤ 16
      omega

/-- C7 witness: the theorem applied at a concrete state with `SP = 0` and
opcode `2345`. -/
theorem C7_call_stack_witness :
    execute c7State 0 = { c7State with
        STACK := Function.update c7State.STACK c7State.SP ((c7State.PC + 2) % 65536)
        SP := c7State.SP + 1
        PC := fetch c7State &&& 0x0FFF } :=
  (C7_call_stack c7State 0 (by decide)).1 (by decide)

/-- C8: executing `FX1E` adds `V[X]` to I (as a 16-bit sum), sets VF to 1
exactly when that sum exceeds `0xFFF`, masks I to 12 bits, advances PC by
2, and leaves the other V registers alone. -/
theorem C8_fx1e (s : Chip8State) (r : Nat)
    (hf : fetch s &&& 0xF000 = 0xF000) (h1e : fetch s &&& 0x00FF = 0x1E) :
    (execute s r).INDEX = ((s.INDEX + s.V ((fetch s &&& 0x0F00) >>> 8)) % 65536) % 4096 ∧
    (execute s r).V 0xF =
      (if 0xFFF < (s.INDEX + s.V ((fetch s &&& 0x0F00) >>> 8)) % 65536 then 1 else 0) ∧
    (execute s r).PC = (s.PC + 2) % 65536 ∧
    (∀ q, q ≠ 0xF → (execute s r).V q = s.V q) := by
  have e : execute s r = { s with
      INDEX := ((s.INDEX + s.V ((fetch s &&& 0x0F00) >>> 8)) % 65536) &&& 0xFFF
      V := Function.update s.V 0xF
        (if (s.INDEX + s.V ((fetch s &&& 0x0F00) >>> 8)) % 65536 > 0xFFF then 1 else 0)
      PC := (s.PC + 2) % 65536 } := by
    unfold execute
    simp only [hf, h1e]
    norm_num
  have hmask : ∀ x : Nat, x &&& 0xFFF = x % 4096 := by
    intro x
    have h12 : (4095 : Nat) = 2 ^ 12 - 1 := by norm_num
    rw [h12, Nat.and_pow_two_sub_one_eq_mod]
  rw [e]
  refine ⟨hmask _, ?_, rfl, ?_⟩
  · simp
  · intro q hq
    simp [Function.update_noteq hq]

/-- C8 witness: the theorem applied at the boundary case the claim names,
`I = 0xFFF` and `V[X] = 1`: afterwards `I = 0` and `VF = 1`. -/
theorem C8_fx1e_witness :
    (execute c8State 0).INDEX = 0 ∧ (execute c8State 0).V 0xF = 1 := by
  have h := C8_fx1e c8State 0 (by decide) (by decide)
  refine ⟨?_, ?_⟩
  · rw [h.1]
    decide
  · rw [h.2.1]
    decide

/-- C9: the claim states that `load_rom` refuses (reports an error and
clamps the copy) whenever `rom_size > 3584`, so that no call writes RAM
past index 4095.  The source `load_rom` has no size check, no clamp and
no error report (`void` return): with a 3585-byte ROM the `memcpy` writes
index `0x200 + 3584 = 4096`, and the copied byte lands there. -/
theorem C9_load_rom_unchecked :
    4096 ∈ load_rom_copy_writes 3585 ∧
    (load_rom zeroState (List.replicate 3585 0x42)).RAM 4096 = 0x42 := by
  constructor
  · simp only [load_rom_copy_writes, List.mem_map, List.mem_range]
    exact ⟨3584, by norm_num⟩
  · simp only [load_rom, List.length_replicate]
    rw [if_pos (by norm_num)]
    rw [getD_replicate 0x42 0 3585 (4096 - 0x200) (by norm_num)]

/-- C10: for every flag position `p < 16` and boolean `v`, after
`set(p, v)` the read `get(p)` returns `v` and `get(q)` is unchanged for
every other position `q < 16`; after `clear_all()` every `get` returns
false. -/
theorem C10_flag_manager (w p q : Nat) (v : Bool) (hp : p < 16) (hq : q < 16)
    (hne : q ≠ p) :
    flagGet (flagSet w p v) p = v ∧
    flagGet (flagSet w p v) q = flagGet w q ∧
    (∀ x : Nat, flagGet flagClearAll x = false) := by
  refine ⟨flagGet_flagSet_self w p v hp, flagGet_flagSet_other w p q v hp hq hne, ?_⟩
  intro x
  simp [flagGet, flagClearAll, Nat.zero_and]

/-- C10 witness: the theorem applied at concrete positions 3 and 5 on a
concrete flags word. -/
theorem C10_flag_manager_witness :
    flagGet (flagSet 37 3 true) 3 = true ∧
    flagGet (flagSet 37 3 true) 5 = flagGet 37 5 ∧
    (∀ x : Nat, flagGet flagClearAll x = false) :=
  C10_flag_manager 37 3 5 true (by decide) (by decide) (by decide)

end Chip8
